import Mathlib

/-!
# Verification of the IPTV stream-management core

Shallow embedding of the repository's stream lifecycle module (`src/unnamed/part_000`,
the `lib/data.ts` module imported by the API routes) together with the claims
stated about it.

Modelling conventions:
* The JSON file `data/streams.json` is modelled as the `streams` field of `St`;
  reading it (`getAllStreams`) returns that list, writing it is recorded as a
  `Effect.writeStreamsFile` entry in the effect trace.
* Every observable OS interaction (execSync, spawn, setTimeout sleeps, file
  unlinks, log appends) is recorded in an effect trace, in program order.
* `execSync` both runs a command and may throw; its result is supplied by the
  environment `Env.exec : String → Except String String` (`Except.error` models
  a thrown exception, carrying the stringified error message).
* `spawn` of a detached child is modelled by `Env.spawnOk`; filesystem writes
  are modelled as total (the claims under study do not exercise fs-write
  failures; `appendToLog` in the source additionally swallows its own errors).
* JavaScript numbers that undergo division are modelled as `Rat`; `Math.round`
  is `jsRound` (`Math.round x = ⌊x + 1/2⌋` exactly, for all JS numbers).
* Regular-expression matching (`String.prototype.match`) is an oracle
  `Env.rmatch multiline pattern text`, returning `some (whole :: captures)` on a
  match; `JSON.parse` of a log line is likewise an oracle parameter of the log
  functions.  The pattern strings passed to the oracle are the source's regex
  literals, verbatim.
-/

/-- The four severities of the `LogEntry.type` union in `types.ts`. -/
inductive LogType where
  | info
  | warning
  | error
  | success
  deriving DecidableEq

/-- `LogEntry` from `types.ts`: `{ timestamp: number; message: string; type: ... }`. -/
structure LogEntry where
  timestamp : Nat
  message : String
  type : LogType
  deriving DecidableEq

/-- `IPTVStream` from `types.ts`.  `pid` is optional in the source and is in fact
never assigned by any function of the repository. -/
structure IPTVStream where
  id : String
  name : String
  key : String
  link1 : String
  rtmp : String
  category1 : String
  bitrate : String
  resolution : String
  active : Bool
  pid : Option String := none
  createdAt : Nat
  updatedAt : Nat
  deriving DecidableEq

/-- The value of `process.platform`, as far as the source distinguishes it
(`win32`, `darwin`, `linux`, anything else). -/
inductive HostOS where
  | windows
  | mac
  | linux
  | other
  deriving DecidableEq

/-- One observable side effect of the stream-management module, in program order. -/
inductive Effect where
  | exec (cmd : String)
  | spawnProc (cmd : String) (args : List String)
  | sleepMs (ms : Nat)
  | writeStreamsFile (streams : List IPTVStream)
  | writeScriptFile (id : String)
  | appendLogLine (id : String) (entry : LogEntry)
  | unlinkFile (file : String)
  deriving DecidableEq

/-- System state threaded through the operations: the persisted stream list
(`data/streams.json`) plus the trace of effects performed so far. -/
structure St where
  streams : List IPTVStream
  trace : List Effect := []
  deriving DecidableEq

/-- The environment: platform, clock, and the outcomes of the external calls.
`exec` models `execSync` (`Except.error msg` = the call threw), `spawnOk`
models `spawn` of the detached child, `rmatch` is the regex-engine oracle,
`mkDateMs` is `new Date(y, monthIndex, d, h, min, s).getTime()`, and the
remaining fields model the `os` module probes used by the fallback branch. -/
structure Env where
  platform : HostOS
  now : Nat
  exec : String → Except String String
  spawnOk : String → List String → Except String Unit
  fileExists : String → Bool
  readFile : String → Except String String
  rmatch : Bool → String → String → Option (List String)
  mkDateMs : Int → Int → Int → Int → Int → Int → Int
  osUptime : Nat
  loadavg0 : Rat
  totalmem : Rat
  freemem : Rat

/-- `process.platform === \x27win32\x27`, computed the same way at each use site. -/
def Env.isWin (env : Env) : Bool := env.platform == HostOS.windows

/-- `path.join(STREAM_SCRIPTS_DIR, id + ".sh")`, relative to `process.cwd()`. -/
def scriptPath (id : String) : String := "data/scripts/" ++ id ++ ".sh"

/-- `path.join(STREAM_LOGS_DIR, id + ".log")`, relative to `process.cwd()`. -/
def logPath (id : String) : String := "data/logs/" ++ id ++ ".log"

/-- Append one effect to the trace. -/
def recordEffect (st : St) (e : Effect) : St :=
  { st with trace := st.trace ++ [e] }

/-- `getAllStreams()`: reads and parses `streams.json` (modelled directly by the
state; the source returns `[]` if the read fails, a path not exercised here). -/
def getAllStreams (st : St) : List IPTVStream := st.streams

/-- `getStreamById(id)`: `streams.find(stream => stream.id === id)`. -/
def getStreamById (st : St) (id : String) : Option IPTVStream :=
  (getAllStreams st).find? (fun stream => stream.id == id)

/-- `Partial<IPTVStream>`: the update payload of `updateStream`; an absent key
is `none`.  The source spreads the payload over the stored record. -/
structure StreamPatch where
  id : Option String := none
  name : Option String := none
  key : Option String := none
  link1 : Option String := none
  rtmp : Option String := none
  category1 : Option String := none
  bitrate : Option String := none
  resolution : Option String := none
  active : Option Bool := none
  pid : Option (Option String) := none
  createdAt : Option Nat := none
  updatedAt : Option Nat := none
  deriving DecidableEq

/-- `{ ...streams[index], ...streamData, updatedAt: Date.now() }`: each present
payload field overwrites the stored one, then `updatedAt` is freshly stamped. -/
def applyPatch (old : IPTVStream) (p : StreamPatch) (now : Nat) : IPTVStream :=
  { id := p.id.getD old.id
    name := p.name.getD old.name
    key := p.key.getD old.key
    link1 := p.link1.getD old.link1
    rtmp := p.rtmp.getD old.rtmp
    category1 := p.category1.getD old.category1
    bitrate := p.bitrate.getD old.bitrate
    resolution := p.resolution.getD old.resolution
    active := p.active.getD old.active
    pid := p.pid.getD old.pid
    createdAt := p.createdAt.getD old.createdAt
    updatedAt := now }

/-- JavaScript truthiness of an optional string field (`undefined` and `""` are
falsy), as used by the script-regeneration condition of `updateStream`. -/
def truthy (o : Option String) : Bool :=
  match o with
  | some s => s != ""
  | none => false

/-- `streams.findIndex(...)` followed by `streams[index] = updatedStream`:
replace the first stream whose id matches, returning the updated record. -/
def updateStreamsList (l : List IPTVStream) (id : String) (p : StreamPatch) (now : Nat) :
    Option IPTVStream × List IPTVStream :=
  match l with
  | [] => (none, [])
  | s :: rest =>
    if s.id == id then
      let u := applyPatch s p now
      (some u, u :: rest)
    else
      let (r, rest2) := updateStreamsList rest id p now
      (r, s :: rest2)

/-- `updateStream(id, streamData)` (source lines 72-93): `undefined` if the id
is unknown; otherwise merge the payload, rewrite `streams.json`, and regenerate
the stream script when any of `link1`/`rtmp`/`key`/`bitrate`/`resolution` is a
truthy payload field. -/
def updateStream (env : Env) (st : St) (id : String) (p : StreamPatch) :
    Option IPTVStream × St :=
  let (r, streams2) := updateStreamsList st.streams id p env.now
  match r with
  | none => (none, st)
  | some u =>
    let st1 := { st with streams := streams2,
                         trace := st.trace ++ [Effect.writeStreamsFile streams2] }
    let st2 :=
      if truthy p.link1 || truthy p.rtmp || truthy p.key || truthy p.bitrate ||
          truthy p.resolution then
        recordEffect st1 (Effect.writeScriptFile u.id)
      else st1
    (some u, st2)

/-- `appendToLog(id, entry)`: appends one JSON line to the stream's log file
(the source catches and ignores its own fs errors, so it is total). -/
def appendToLogSt (st : St) (id : String) (entry : LogEntry) : St :=
  recordEffect st (Effect.appendLogLine id entry)

/-- The Windows ffmpeg command line assembled by `startStream` (line 140). -/
def windowsFfmpegCmd (stream : IPTVStream) : String :=
  "ffmpeg -re -i \"" ++ stream.link1 ++
    "\" -vcodec libx264 -preset veryfast -tune zerolatency -s " ++ stream.resolution ++
    " -b:v " ++ stream.bitrate ++ " -maxrate " ++ stream.bitrate ++
    " -acodec aac -b:a 56k -sc_threshold 0 -g 48 -keyint_min 48 -x264opts no-scenecut" ++
    " -ar 48000 -bufsize 1600k -ab 96k -f flv \"" ++ stream.rtmp ++ "/" ++ stream.key ++ "\""

/-- The program and argument vector handed to `spawn` by `startStream`,
per platform (lines 138-157). -/
def launchCmdArgs (env : Env) (stream : IPTVStream) (id : String) : String × List String :=
  if env.isWin then
    ("cmd.exe",
      ["/c", "start", "/b", "cmd", "/c",
        windowsFfmpegCmd stream ++ " > " ++ logPath id ++ " 2>&1"])
  else
    ("sh", [scriptPath id, stream.link1, stream.rtmp])

/-- `startStream(id)` (source lines 124-182): `false` for an unknown id; an
immediate `true` when the persisted `active` flag is set ("Already running, no
need to start again"); otherwise spawn the detached transcoder, mark the stream
active, and append a "Stream started" log entry.  If the spawn throws, the
error is logged and `false` returned. -/
def startStream (env : Env) (st : St) (id : String) : Bool × St :=
  match getStreamById st id with
  | none => (false, st)
  | some stream =>
    if stream.active then
      (true, st)
    else
      let (cmd, args) := launchCmdArgs env stream id
      let st1 := recordEffect st (Effect.spawnProc cmd args)
      match env.spawnOk cmd args with
      | Except.ok _ =>
        let st2 := (updateStream env st1 id { active := some true }).2
        let st3 := appendToLogSt st2 id
          { timestamp := env.now, message := "Stream started", type := LogType.info }
        (true, st3)
      | Except.error e =>
        let st2 := appendToLogSt st1 id
          { timestamp := env.now, message := "Failed to start stream: " ++ e,
            type := LogType.error }
        (false, st2)

/-- First Windows kill command of `stopStream` (line 193). -/
def winKillCmd1 (url : String) : String :=
  "taskkill /F /FI \"WINDOWTITLE eq *" ++ url ++ "*\" /T"

/-- Second Windows kill command of `stopStream` (line 194). -/
def winKillCmd2 (url : String) : String :=
  "taskkill /F /FI \"COMMANDLINE eq *" ++ url ++ "*\" /T"

/-- Unix kill command of `stopStream` (line 197): `pkill -f` on the stream's
input URL. -/
def unixKillCmd (url : String) : String := "pkill -f \"" ++ url ++ "\""

/-- The kill commands issued by `stopStream` (lines 189-198): two `taskkill`
invocations on Windows, one `pkill -f` on the stream's input URL otherwise.
Returns the overall `execSync` outcome; every attempted command is traced. -/
def killPhase (env : Env) (st : St) (stream : IPTVStream) : Except String Unit × St :=
  if env.isWin then
    let st1 := recordEffect st (Effect.exec (winKillCmd1 stream.link1))
    match env.exec (winKillCmd1 stream.link1) with
    | Except.error e => (Except.error e, st1)
    | Except.ok _ =>
      let st2 := recordEffect st1 (Effect.exec (winKillCmd2 stream.link1))
      match env.exec (winKillCmd2 stream.link1) with
      | Except.error e => (Except.error e, st2)
      | Except.ok _ => (Except.ok (), st2)
  else
    let st1 := recordEffect st (Effect.exec (unixKillCmd stream.link1))
    match env.exec (unixKillCmd stream.link1) with
    | Except.error e => (Except.error e, st1)
    | Except.ok _ => (Except.ok (), st1)

/-- `stopStream(id)` (source lines 184-226): `false` for an unknown id; for an
existing stream it issues the platform kill commands against the input URL,
marks the stream inactive, logs, and returns `true`.  When the kill command
throws, the error is logged as a warning, the stream is marked inactive anyway,
and `true` is still returned. -/
def stopStream (env : Env) (st : St) (id : String) : Bool × St :=
  match getStreamById st id with
  | none => (false, st)
  | some stream =>
    match killPhase env st stream with
    | (Except.ok _, st1) =>
      let st2 := (updateStream env st1 id { active := some false }).2
      let st3 := appendToLogSt st2 id
        { timestamp := env.now, message := "Stream stopped", type := LogType.info }
      (true, st3)
    | (Except.error e, st1) =>
      let st2 := appendToLogSt st1 id
        { timestamp := env.now, message := "Error while stopping stream: " ++ e,
          type := LogType.warning }
      let st3 := (updateStream env st2 id { active := some false }).2
      (true, st3)

/-- `restartStream(id)` (source lines 228-237): stop, then
`await new Promise(resolve => setTimeout(resolve, 1000))`, then start. -/
def restartStream (env : Env) (st : St) (id : String) : Bool × St :=
  let st1 := (stopStream env st id).2
  let st2 := recordEffect st1 (Effect.sleepMs 1000)
  startStream env st2 id

/-- `deleteStream(id)` (source lines 95-121): stop the stream first, then
filter the record out of `streams.json` (returning `false` when nothing was
removed), then unlink the script and log files if they exist. -/
def deleteStream (env : Env) (st : St) (id : String) : Bool × St :=
  let st1 := (stopStream env st id).2
  let filteredStreams := st1.streams.filter (fun stream => stream.id != id)
  if filteredStreams.length == st1.streams.length then
    (false, st1)
  else
    let st2 := { st1 with streams := filteredStreams,
                          trace := st1.trace ++ [Effect.writeStreamsFile filteredStreams] }
    let st3 :=
      if env.fileExists (scriptPath id) then
        recordEffect st2 (Effect.unlinkFile (scriptPath id))
      else st2
    let st4 :=
      if env.fileExists (logPath id) then
        recordEffect st3 (Effect.unlinkFile (logPath id))
      else st3
    (true, st4)

/-! ## Log retrieval (`getStreamLogs`, source lines 240-267)

`getStreamLogs` is modelled at the level of the log file's contents: the
existence check and the read are summarised by a `ReadResult`, and `JSON.parse`
of a single line (returning `none` when the parse throws) is an oracle
parameter `parse`. -/

/-- Outcome of `fs.existsSync` + `fs.readFileSync` on the log file. -/
inductive ReadResult where
  | missing
  | readError
  | content (data : String)
  deriving DecidableEq

/-- `data.split(\x27\n\x27).filter(line => line.trim() !== \x27\x27)`. -/
def keptLines (data : String) : List String :=
  (data.splitOn "\n").filter (fun line => line.trim != "")

/-- The parsing loop of `getStreamLogs`: walk the given lines in order, and
while fewer than `limit` entries have been collected, push each line that
parses; lines that fail to parse are skipped.  The caller passes the kept
lines in reverse so that the walk starts from the end of the file, exactly as
the source's downward `for` loop does. -/
def collectLogs (parse : String → Option LogEntry) (limit : Nat) :
    List String → List LogEntry → List LogEntry
  | [], logs => logs
  | line :: rest, logs =>
    if logs.length < limit then
      match parse line with
      | some log => collectLogs parse limit rest (logs ++ [log])
      | none => collectLogs parse limit rest logs
    else logs

/-- `getStreamLogs` after the file has been read and split into kept lines. -/
def getLogsFromKept (parse : String → Option LogEntry) (limit : Nat)
    (kept : List String) : List LogEntry :=
  collectLogs parse limit kept.reverse []

/-- `getStreamLogs(id, limit)`: `[]` when the log file does not exist or the
read throws; otherwise parse entries from the most recent line backwards until
`limit` entries are collected. -/
def getStreamLogs (parse : String → Option LogEntry) (file : ReadResult)
    (limit : Nat) : List LogEntry :=
  match file with
  | ReadResult.missing => []
  | ReadResult.readError => []
  | ReadResult.content data => getLogsFromKept parse limit (keptLines data)

/-! ## JavaScript helpers used by the statistics code -/

/-- `Math.round x = ⌊x + 1/2⌋`, exactly, on all JS numbers. -/
def jsRound (q : Rat) : Int := Rat.floor (q + 1/2)

/-- JS `parseInt` on the strings this module feeds it: skip leading
whitespace, an optional sign, then take the leading digits.  `parseInt`
returns `NaN` when no digits are found; `NaN` has no `Rat` counterpart and is
modelled as `0` here.  That case is unreachable under a faithful regex
oracle, because every string the source parses is produced by a digit-class
pattern (`\d+`, `[0-9.]+`, `\d{14}` and friends) or is checked before use. -/
def jsParseInt (s : String) : Int :=
  let cs := s.data.dropWhile Char.isWhitespace
  let (sign, ds) : Int × List Char :=
    match cs with
    | '-' :: rest => (-1, rest)
    | '+' :: rest => (1, rest)
    | rest => (1, rest)
  let digits := ds.takeWhile Char.isDigit
  sign * (digits.foldl (fun acc c => acc * 10 + (Int.ofNat (c.toNat - '0'.toNat))) 0)

/-- JS `%` (remainder) for the non-negative operands this module uses. -/
def jsMod (a b : Rat) : Rat := a - b * ((Rat.floor (a / b) : Int) : Rat)

/-- `x.toFixed(1)` for the non-negative values this module formats. -/
def toFixed1 (q : Rat) : String :=
  let n := Rat.floor (q * 10 + 1/2)
  toString (n / 10) ++ "." ++ toString (n % 10)

/-- `String.prototype.replace(needle, rep)` with a string needle: replace the
first occurrence only. -/
def jsReplaceFirst (s needle rep : String) : String :=
  match s.splitOn needle with
  | [] => s
  | [_] => s
  | a :: b :: rest => a ++ rep ++ String.intercalate needle (b :: rest)

/-- `formatUptime(seconds)` (source lines 563-576): days/hours/minutes parts
joined by ", ", or "0 minutes". -/
def formatUptime (seconds : Rat) : String :=
  let days : Int := Rat.floor (seconds / (24 * 60 * 60))
  let s1 := jsMod seconds (24 * 60 * 60)
  let hours : Int := Rat.floor (s1 / (60 * 60))
  let s2 := jsMod s1 (60 * 60)
  let minutes : Int := Rat.floor (s2 / 60)
  let parts : List String :=
    (if days > 0 then [toString days ++ " day" ++ (if days != 1 then "s" else "")] else []) ++
    (if hours > 0 then [toString hours ++ " hour" ++ (if hours != 1 then "s" else "")] else []) ++
    (if minutes > 0 then [toString minutes ++ " minute" ++ (if minutes != 1 then "s" else "")] else [])
  let joined := String.intercalate ", " parts
  if joined == "" then "0 minutes" else joined

/-!
JS `s.split(/\s+/)`: maximal whitespace runs are separators; a leading or
trailing run contributes an empty component, and splitting the empty string
yields a single empty component.  `jsSplitWsGo` accumulates the current
component (reversed); `jsSplitWsSkip` consumes a whitespace run.
-/
mutual

def jsSplitWsGo : List Char → List Char → List String
  | [], cur => [String.mk cur.reverse]
  | c :: rest, cur =>
    if c.isWhitespace then String.mk cur.reverse :: jsSplitWsSkip rest
    else jsSplitWsGo rest (c :: cur)

def jsSplitWsSkip : List Char → List String
  | [] => [""]
  | c :: rest =>
    if c.isWhitespace then jsSplitWsSkip rest
    else jsSplitWsGo rest [c]

end

/-- JS `s.split(/\s+/)`. -/
def jsSplitWs (s : String) : List String := jsSplitWsGo s.data []

/-! ## System statistics (`getSystemStats`, source lines 372-560)

The source declares mutable locals (`cpu`, `memTotal`, ..., `uptimeString`)
with zero defaults, then runs a platform-specific sequence of probes inside a
`try`/`catch` that logs and falls through on the first thrown `execSync`,
keeping whatever locals were already assigned.  Each probe below is one
`execSync` followed by pure parsing of its output, so a step mutates the
locals only if its command succeeded, exactly as in the source. -/

/-- The mutable locals of `getSystemStats`, with their initial values
(source lines 378-385). -/
structure SysLocals where
  cpu : String := "0 %"
  memTotal : Rat := 0
  memUsed : Rat := 0
  memFree : Rat := 0
  diskTotal : Rat := 0
  diskUsed : Rat := 0
  diskFree : Rat := 0
  uptimeString : String := ""
  deriving DecidableEq

/-- Run probe steps left to right inside one `try`/`catch`: the first step
that throws aborts the rest, keeping the locals assigned so far. -/
def runCatch : List (SysLocals → Except String SysLocals) → SysLocals → SysLocals
  | [], l => l
  | step :: rest, l =>
    match step l with
    | Except.ok l2 => runCatch rest l2
    | Except.error _ => l

/-- Windows CPU probe (lines 390-395). -/
def winCpuStep (env : Env) (l : SysLocals) : Except String SysLocals := do
  let out ← env.exec "wmic cpu get loadpercentage"
  let out := out.trim
  match env.rmatch false "\\d+" out with
  | some (w :: _) => pure { l with cpu := w ++ " %" }
  | _ => pure l

/-- Windows memory probe (lines 397-406), KB converted to MB. -/
def winMemStep (env : Env) (l : SysLocals) : Except String SysLocals := do
  let out ← env.exec "wmic OS get FreePhysicalMemory,TotalVisibleMemorySize /Value"
  match env.rmatch false "TotalVisibleMemorySize=(\\d+)" out,
        env.rmatch false "FreePhysicalMemory=(\\d+)" out with
  | some (_ :: t :: _), some (_ :: f :: _) =>
    let memTotal : Rat := (jsParseInt t : Rat) / 1024
    let memFree : Rat := (jsParseInt f : Rat) / 1024
    pure { l with memTotal, memFree, memUsed := memTotal - memFree }
  | _, _ => pure l

/-- Windows disk probe (lines 408-417), bytes converted to GB. -/
def winDiskStep (env : Env) (l : SysLocals) : Except String SysLocals := do
  let out ← env.exec "wmic logicaldisk where DeviceID=\"C:\" get Size,FreeSpace /Value"
  match env.rmatch false "Size=(\\d+)" out,
        env.rmatch false "FreeSpace=(\\d+)" out with
  | some (_ :: t :: _), some (_ :: f :: _) =>
    let diskTotal : Rat := (jsParseInt t : Rat) / (1024 * 1024 * 1024)
    let diskFree : Rat := (jsParseInt f : Rat) / (1024 * 1024 * 1024)
    pure { l with diskTotal, diskFree, diskUsed := diskTotal - diskFree }
  | _, _ => pure l

/-- Windows uptime probe (lines 419-427): server statistics, with a fallback
to `os.uptime()` when the command produced empty output. -/
def winUptimeStep (env : Env) (l : SysLocals) : Except String SysLocals := do
  let out ← env.exec "net statistics server | find \"Statistics since\""
  if out != "" then
    pure { l with uptimeString := (jsReplaceFirst out "Statistics since" "").trim }
  else
    pure { l with uptimeString := formatUptime (env.osUptime : Rat) }

/-- Unix CPU probe (lines 434-442): `top` piped through `grep`, then the
`user` percentage is extracted. -/
def unixCpuStep (env : Env) (isMac : Bool) (l : SysLocals) : Except String SysLocals := do
  let out ← env.exec (if isMac then "top -l 1 | grep \x27CPU usage\x27"
                      else "top -b -n 1 | grep \x27%Cpu\x27")
  match env.rmatch false "(\\d+\\.\\d+)%\\s+user" out with
  | some (_ :: c :: _) => pure { l with cpu := c ++ " %" }
  | _ => pure l

/-- macOS memory probe (lines 445-466): `vm_stat` page counts at a fixed
4096-byte page size, converted to MB. -/
def macMemStep (env : Env) (l : SysLocals) : Except String SysLocals := do
  let out ← env.exec "vm_stat"
  match env.rmatch false "Pages free:\\s+(\\d+)" out,
        env.rmatch false "Pages active:\\s+(\\d+)" out,
        env.rmatch false "Pages inactive:\\s+(\\d+)" out,
        env.rmatch false "Pages speculative:\\s+(\\d+)" out,
        env.rmatch false "Pages wired down:\\s+(\\d+)" out with
  | some (_ :: fr :: _), some (_ :: ac :: _), some (_ :: ia :: _),
      some (_ :: sp :: _), some (_ :: wi :: _) =>
    let pageSize : Rat := 4096
    let free := (jsParseInt fr : Rat) * pageSize
    let active := (jsParseInt ac : Rat) * pageSize
    let inactive := (jsParseInt ia : Rat) * pageSize
    let speculative := (jsParseInt sp : Rat) * pageSize
    let wired := (jsParseInt wi : Rat) * pageSize
    let memTotal := (free + active + inactive + speculative + wired) / (1024 * 1024)
    let memFree := free / (1024 * 1024)
    pure { l with memTotal, memFree, memUsed := memTotal - memFree }
  | _, _, _, _, _ => pure l

/-- Linux memory probe (lines 468-477): `free -m`. -/
def linuxMemStep (env : Env) (l : SysLocals) : Except String SysLocals := do
  let out ← env.exec "free -m"
  match env.rmatch false "Mem:\\s+(\\d+)\\s+(\\d+)\\s+(\\d+)" out with
  | some (_ :: t :: u :: f :: _) =>
    pure { l with memTotal := (jsParseInt t : Rat), memUsed := (jsParseInt u : Rat),
                  memFree := (jsParseInt f : Rat) }
  | _ => pure l

/-- Unix disk probe (lines 479-489): `df -h /`, scraped for the first
percentage and the first gigabyte figure. -/
def unixDiskStep (env : Env) (l : SysLocals) : Except String SysLocals := do
  let out ← env.exec "df -h /"
  match env.rmatch false "\\d+%" out, env.rmatch false "\\d+G" out with
  | some (dm :: _), some (sm :: _) =>
    let usedPercent : Rat := (jsParseInt dm : Rat) / 100
    let diskTotal : Rat := (jsParseInt sm : Rat)
    let diskUsed := diskTotal * usedPercent
    pure { l with diskTotal, diskUsed, diskFree := diskTotal - diskUsed }
  | _, _ => pure l

/-- Unix uptime (lines 491-493): `os.uptime()`, no shell command. -/
def unixUptimeStep (env : Env) (l : SysLocals) : Except String SysLocals :=
  pure { l with uptimeString := formatUptime (env.osUptime : Rat) }

/-- Fallback branch for other platforms (lines 497-517): `os` module only. -/
def otherPlatformStep (env : Env) (l : SysLocals) : Except String SysLocals :=
  let memTotal := env.totalmem / (1024 * 1024)
  let memFree := env.freemem / (1024 * 1024)
  pure { l with cpu := toFixed1 env.loadavg0 ++ " %",
                memTotal, memFree, memUsed := memTotal - memFree,
                uptimeString := formatUptime (env.osUptime : Rat) }

/-- `memory`/`disk` sub-record of `SystemStats` in `types.ts`. -/
structure ResourceGauge where
  total : Int
  used : Int
  free : Int
  percent : Int
  deriving DecidableEq

/-- `SystemStats` from `types.ts`. -/
structure SystemStats where
  cpu : String
  memory : ResourceGauge
  disk : ResourceGauge
  uptime : String
  deriving DecidableEq

/-- The final assembly of `getSystemStats` (lines 519-538): percentages are
computed only when the totals are positive, and every figure is rounded. -/
def assembleStats (l : SysLocals) : SystemStats :=
  let memPercent := if l.memTotal > 0 then jsRound (l.memUsed / l.memTotal * 100) else 0
  let diskPercent := if l.diskTotal > 0 then jsRound (l.diskUsed / l.diskTotal * 100) else 0
  { cpu := l.cpu
    memory := { total := jsRound l.memTotal, used := jsRound l.memUsed,
                free := jsRound l.memFree, percent := memPercent }
    disk := { total := jsRound l.diskTotal, used := jsRound l.diskUsed,
              free := jsRound l.diskFree, percent := diskPercent }
    uptime := l.uptimeString }

/-- The hard-coded record returned by the outer `catch` of `getSystemStats`
(source lines 543-558).  Because every throwing probe sits inside a per-branch
inner `try`/`catch`, the outer handler is unreachable both in the source and
in this embedding; it is kept here to document lines 539-559. -/
def fallbackSystemStats : SystemStats :=
  { cpu := "0 %"
    memory := { total := 0, used := 0, free := 0, percent := 0 }
    disk := { total := 0, used := 0, free := 0, percent := 0 }
    uptime := "Unknown" }

/-- The value `getSystemStats` degrades to when the first probe of an
exec-based platform branch throws: all numeric locals still hold their zero
defaults and no uptime string was assigned. -/
def zeroedSystemStats : SystemStats :=
  { cpu := "0 %"
    memory := { total := 0, used := 0, free := 0, percent := 0 }
    disk := { total := 0, used := 0, free := 0, percent := 0 }
    uptime := "" }

/-- `getSystemStats()` (source lines 372-560): run the platform's probe
sequence under its `try`/`catch`, then assemble the rounded figures. -/
def getSystemStats (env : Env) : SystemStats :=
  let l :=
    match env.platform with
    | HostOS.windows =>
      runCatch [winCpuStep env, winMemStep env, winDiskStep env, winUptimeStep env] {}
    | HostOS.mac =>
      runCatch [unixCpuStep env true, macMemStep env, unixDiskStep env, unixUptimeStep env] {}
    | HostOS.linux =>
      runCatch [unixCpuStep env false, linuxMemStep env, unixDiskStep env, unixUptimeStep env] {}
    | HostOS.other =>
      runCatch [otherPlatformStep env] {}
  assembleStats l

/-! ## Per-stream process metrics (`getStreamProcessInfo`, source lines 608-764) -/

/-- The return shape of `getStreamProcessInfo`; `none` models an absent
(`undefined`) optional field, as in `{ running: false }`. -/
structure ProcessInfo where
  running : Bool
  pid : Option String := none
  cpu : Option String := none
  memory : Option String := none
  runtime : Option String := none
  bitrate : Option String := none
  fps : Option String := none
  deriving DecidableEq

/-- `{ running: false }`. -/
def notRunning : ProcessInfo := { running := false }

/-- The initial `processInfo` literal (source lines 627-635); the Windows
branch mutates it field by field, the Unix branch replaces it wholesale. -/
def winBaseInfo : ProcessInfo :=
  { running := true, pid := none, cpu := some "0%", memory := some "0 MB",
    runtime := some "0s", bitrate := some "N/A", fps := some "N/A" }

/-- Template-literal interpolation of a possibly-`undefined` value. -/
def jsTemplate (o : Option String) : String := o.getD "undefined"

/-- `lines.slice(-20)`: the last (at most) 20 elements. -/
def jsSliceLast (l : List String) (n : Nat) : List String := l.drop (l.length - n)

/-- The log-scraping tail shared by both platform branches (source lines
684-701 and 732-748): read the stream's log file if it exists (a throwing
read propagates to the enclosing branch `catch`), join the last 20 lines, and
scrape ffmpeg's `bitrate=` and `fps=` progress figures out of them. -/
def scrapeLogStats (env : Env) (id : String) (info : ProcessInfo) :
    Except String ProcessInfo := do
  if env.fileExists (logPath id) then
    let logData ← env.readFile (logPath id)
    let lines := jsSliceLast (logData.splitOn "\n") 20
    let joined := String.intercalate "\n" lines
    let info :=
      match env.rmatch false "bitrate=\\s*([0-9.]+)kbits\\/s" joined with
      | some (_ :: b :: _) => { info with bitrate := some (b ++ " kbits/s") }
      | _ => info
    let info :=
      match env.rmatch false "fps=\\s*([0-9.]+)" joined with
      | some (_ :: f :: _) => { info with fps := some (f ++ " fps") }
      | _ => info
    pure info
  else
    pure info

/-- The Unix `memory` field: `Math.round(parseInt(parts[5]) / 1024)` MB
(an out-of-range column index gives `NaN` in JS). -/
def unixMemField (o : Option String) : String :=
  match o with
  | some s => toString (jsRound ((jsParseInt s : Rat) / 1024)) ++ " MB"
  | none => "NaN MB"

/-- The Unix process lookup of `getStreamProcessInfo` (line 712): grep the
system-wide `ps aux` listing for the stream's input URL. -/
def unixPsLookupCmd (url : String) : String :=
  "ps aux | grep \"" ++ url ++ "\" | grep -v grep"

/-- The Windows process lookup of `getStreamProcessInfo` (line 641): a `wmic`
query for command lines containing the stream's input URL. -/
def winPsLookupCmd (url : String) : String :=
  "wmic process where \"commandline like \x27%" ++ url ++ "%\x27\" get processid,commandline"

/-- Unix branch of `getStreamProcessInfo` (source lines 710-756): locate the
process by grepping the system-wide `ps aux` listing for the stream's input
URL, then read PID/CPU/memory/runtime out of the matched line's columns.  Any
thrown command (including a grep with no matches, which exits non-zero) is
caught and reported as `running: false`. -/
def unixProcInfo (env : Env) (st : St) (stream : IPTVStream) (id : String) :
    ProcessInfo × St :=
  let grepCmd := unixPsLookupCmd stream.link1
  let st1 := recordEffect st (Effect.exec grepCmd)
  match env.exec grepCmd with
  | Except.error _ => (notRunning, st1)
  | Except.ok psOutput =>
    let lines := (psOutput.trim).splitOn "\n"
    if lines.length > 0 then
      let parts := jsSplitWs (lines.headD "")
      let info : ProcessInfo :=
        { running := true
          pid := parts.get? 1
          cpu := some (jsTemplate (parts.get? 2) ++ "%")
          memory := some (unixMemField (parts.get? 5))
          runtime := parts.get? 9
          bitrate := some "N/A"
          fps := some "N/A" }
      match scrapeLogStats env id info with
      | Except.ok i => (i, st1)
      | Except.error _ => (notRunning, st1)
    else
      (notRunning, st1)

/-- Windows branch of `getStreamProcessInfo` (source lines 637-708): locate
the process by a `wmic` query on command lines containing the stream's input
URL, then query memory/CPU time and the creation date by the PID scraped from
that first query.  Any thrown command is caught and reported as
`running: false`. -/
def winProcInfo (env : Env) (st : St) (stream : IPTVStream) (id : String) :
    ProcessInfo × St :=
  let cmd1 := winPsLookupCmd stream.link1
  let st1 := recordEffect st (Effect.exec cmd1)
  match env.exec cmd1 with
  | Except.error _ => (notRunning, st1)
  | Except.ok cmdOutput =>
    match env.rmatch true "(\\d+)\\s*$" cmdOutput with
    | some (_ :: pid :: _) =>
      let info0 := { winBaseInfo with pid := some pid }
      let cmd2 := "wmic process where processid=" ++ pid ++ " get workingsetsize,usermodetime"
      let st2 := recordEffect st1 (Effect.exec cmd2)
      match env.exec cmd2 with
      | Except.error _ => (notRunning, st2)
      | Except.ok procInfoOutput =>
        let info1 :=
          match env.rmatch false "(\\d+)" procInfoOutput with
          | some (_ :: m :: _) =>
            let memStr := toString (jsRound ((jsParseInt m : Rat) / (1024 * 1024))) ++ " MB"
            { info0 with memory := some memStr }
          | _ => info0
        match env.rmatch false "(\\d+)\\s*$" procInfoOutput with
        | some (_ :: ct :: _) =>
          let cpuTime : Rat := (jsParseInt ct : Rat) / 10000000
          let cmd3 := "wmic process where processid=" ++ pid ++ " get creationdate"
          let st3 := recordEffect st2 (Effect.exec cmd3)
          match env.exec cmd3 with
          | Except.error _ => (notRunning, st3)
          | Except.ok uptimeOutput =>
            let info2 :=
              match env.rmatch false "(\\d{14})" uptimeOutput with
              | some (_ :: c :: _) =>
                let creationMs := env.mkDateMs (jsParseInt (c.take 4))
                  (jsParseInt ((c.drop 4).take 2) - 1) (jsParseInt ((c.drop 6).take 2))
                  (jsParseInt ((c.drop 8).take 2)) (jsParseInt ((c.drop 10).take 2))
                  (jsParseInt ((c.drop 12).take 2))
                let elapsedSeconds : Rat := (((env.now : Int) - creationMs : Int) : Rat) / 1000
                if elapsedSeconds > 0 then
                  { info1 with cpu := some (toFixed1 (cpuTime / elapsedSeconds * 100) ++ "%"),
                               runtime := some (formatUptime elapsedSeconds) }
                else info1
              | _ => info1
            match scrapeLogStats env id info2 with
            | Except.ok i => (i, st3)
            | Except.error _ => (notRunning, st3)
        | _ =>
          match scrapeLogStats env id info1 with
          | Except.ok i => (i, st2)
          | Except.error _ => (notRunning, st2)
    | _ => (notRunning, st1)

/-- `getStreamProcessInfo(id)` (source lines 608-764): `running: false` for an
unknown or inactive stream; otherwise locate the process by matching the
stream's input URL against the system-wide process table and scrape its
metrics, degrading to `running: false` whenever a probe throws. -/
def getStreamProcessInfo (env : Env) (st : St) (id : String) : ProcessInfo × St :=
  match getStreamById st id with
  | none => (notRunning, st)
  | some stream =>
    if !stream.active then (notRunning, st)
    else if env.isWin then winProcInfo env st stream id
    else unixProcInfo env st stream id

/-! ## Lemmas about log retrieval -/

/-- The parsing loop collects, onto `acc`, the parseable lines in order, until
`limit` entries are held in total. -/
theorem collectLogs_eq (parse : String → Option LogEntry) (limit : Nat) :
    ∀ (l : List String) (acc : List LogEntry),
      collectLogs parse limit l acc = acc ++ (l.filterMap parse).take (limit - acc.length) := by
  intro l
  induction l with
  | nil => intro acc; simp [collectLogs]
  | cons line rest ih =>
    intro acc
    by_cases h : acc.length < limit
    · cases hp : parse line with
      | none => simp [collectLogs, h, hp, ih]
      | some e =>
        obtain ⟨k, hk⟩ : ∃ k, limit - acc.length = k + 1 := ⟨limit - acc.length - 1, by omega⟩
        have hk2 : limit - (acc ++ [e]).length = k := by
          simp only [List.length_append, List.length_singleton]; omega
        simp [collectLogs, h, hp, ih, hk, hk2, List.append_assoc]
        have h3 : limit - (acc.length + 1) = k := by omega
        rw [h3]
    · have h0 : limit - acc.length = 0 := by omega
      simp [collectLogs, h, h0]

/-- `getStreamLogs` on kept lines is: parse every line, keep the valid
entries, reverse (newest first), truncate to `limit`. -/
theorem getLogsFromKept_eq (parse : String → Option LogEntry) (limit : Nat)
    (kept : List String) :
    getLogsFromKept parse limit kept = ((kept.filterMap parse).reverse).take limit := by
  unfold getLogsFromKept
  rw [collectLogs_eq]
  simp [List.filterMap_reverse]

/-! ## Claims C7 and C10 -/

/-- C7: for every stream id and every limit N, log retrieval returns at most
N records, and they are the most recent records of the log, ordered newest
first.  The second conjunct makes "most recent, newest first" precise: the
result is the reverse of the file's valid entries (which `appendToLog` writes
oldest-to-newest), truncated to the limit — i.e. the last `min N k` valid
entries, newest first. -/
theorem getStreamLogs_limit_newest_first (parse : String → Option LogEntry)
    (file : ReadResult) (limit : Nat) (data : String) :
    (getStreamLogs parse file limit).length ≤ limit ∧
    getStreamLogs parse (ReadResult.content data) limit =
      (((keptLines data).filterMap parse).reverse).take limit := by
  constructor
  · cases file with
    | missing => simp [getStreamLogs]
    | readError => simp [getStreamLogs]
    | content d =>
      simp only [getStreamLogs, getLogsFromKept_eq, List.length_take]
      omega
  · simp [getStreamLogs, getLogsFromKept_eq]

/-- C10: `getStreamLogs` is total and tolerant: a missing or unreadable log
file yields `[]`, and a line that fails to parse as JSON is skipped without
aborting retrieval and without counting against the limit (removing it from
the kept lines leaves the result unchanged). -/
theorem getStreamLogs_total_skips_invalid (parse : String → Option LogEntry)
    (limit : Nat) (l1 l2 : List String) (bad : String) :
    getStreamLogs parse ReadResult.missing limit = [] ∧
    getStreamLogs parse ReadResult.readError limit = [] ∧
    (parse bad = none →
      getLogsFromKept parse limit (l1 ++ bad :: l2) =
        getLogsFromKept parse limit (l1 ++ l2)) := by
  refine ⟨rfl, rfl, fun hbad => ?_⟩
  rw [getLogsFromKept_eq, getLogsFromKept_eq]
  simp [List.filterMap_append, List.filterMap_cons, hbad]

/-- A concrete `JSON.parse` oracle used by witnesses: only the line
`{"timestamp":1,"message":"m","type":"info"\x7d` parses. -/
def sampleParse (s : String) : Option LogEntry :=
  if s == "\x7b\"timestamp\":1,\"message\":\"m\",\"type\":\"info\"\x7d" then
    some { timestamp := 1, message := "m", type := LogType.info }
  else none

/-- Witness for C10 at a concrete parse oracle, limit and line lists: the
hypothesis (the injected line does not parse) holds, and the retrieval result
ignores the injected line. -/
theorem getStreamLogs_total_skips_invalid_witness :
    sampleParse "garbage" = none ∧
    (getStreamLogs sampleParse ReadResult.missing 3 = [] ∧
      getStreamLogs sampleParse ReadResult.readError 3 = [] ∧
      getLogsFromKept sampleParse 3
          (["\x7b\"timestamp\":1,\"message\":\"m\",\"type\":\"info\"\x7d"] ++ "garbage" ::
            ["\x7b\"timestamp\":1,\"message\":\"m\",\"type\":\"info\"\x7d"]) =
        getLogsFromKept sampleParse 3
          (["\x7b\"timestamp\":1,\"message\":\"m\",\"type\":\"info\"\x7d"] ++
            ["\x7b\"timestamp\":1,\"message\":\"m\",\"type\":\"info\"\x7d"])) :=
  ⟨by decide,
    ⟨(getStreamLogs_total_skips_invalid sampleParse 3
        ["\x7b\"timestamp\":1,\"message\":\"m\",\"type\":\"info\"\x7d"]
        ["\x7b\"timestamp\":1,\"message\":\"m\",\"type\":\"info\"\x7d"] "garbage").1,
      (getStreamLogs_total_skips_invalid sampleParse 3
        ["\x7b\"timestamp\":1,\"message\":\"m\",\"type\":\"info\"\x7d"]
        ["\x7b\"timestamp\":1,\"message\":\"m\",\"type\":\"info\"\x7d"] "garbage").2.1,
      (getStreamLogs_total_skips_invalid sampleParse 3
        ["\x7b\"timestamp\":1,\"message\":\"m\",\"type\":\"info\"\x7d"]
        ["\x7b\"timestamp\":1,\"message\":\"m\",\"type\":\"info\"\x7d"] "garbage").2.2
        (by decide)⟩⟩

/-! ## Lemmas about `updateStream` -/

/-- Replacing the first matching stream never changes the sequence of stored
ids when the payload carries no `id` field. -/
theorem updateStreamsList_map_id (id : String) (p : StreamPatch) (now : Nat)
    (hp : p.id = none) :
    ∀ l : List IPTVStream,
      ((updateStreamsList l id p now).2).map (fun s => s.id) = l.map (fun s => s.id) := by
  intro l
  induction l with
  | nil => simp [updateStreamsList]
  | cons s rest ih =>
    by_cases h : s.id == id
    · simp [updateStreamsList, h, applyPatch, hp]
    · simp [updateStreamsList, h, ih]

/-- When the payload carries no `id` field, the record returned by the
first-match replacement keeps the id it was looked up by. -/
theorem updateStreamsList_fst_id (id : String) (p : StreamPatch) (now : Nat)
    (hp : p.id = none) :
    ∀ (l : List IPTVStream) (u : IPTVStream),
      (updateStreamsList l id p now).1 = some u → u.id = id := by
  intro l
  induction l with
  | nil => intro u h; simp [updateStreamsList] at h
  | cons s rest ih =>
    intro u h
    by_cases hs : s.id == id
    · simp only [updateStreamsList, hs, if_true, Option.some.injEq] at h
      subst h
      simp only [applyPatch, hp, Option.getD_none]
      exact eq_of_beq hs
    · simp only [updateStreamsList, hs, if_false] at h
      exact ih u h

/-- An id absent from the list is left untouched by the replacement. -/
theorem updateStreamsList_not_found (id : String) (p : StreamPatch) (now : Nat) :
    ∀ l : List IPTVStream,
      l.find? (fun t => t.id == id) = none → updateStreamsList l id p now = (none, l) := by
  intro l
  induction l with
  | nil => intro _; rfl
  | cons s rest ih =>
    intro h
    rw [List.find?_eq_none] at h
    have hs : (s.id == id) = false := by
      have := h s (List.mem_cons_self s rest)
      simpa using this
    have hrest : rest.find? (fun t => t.id == id) = none := by
      rw [List.find?_eq_none]
      intro x hx
      exact h x (List.mem_cons_of_mem s hx)
    simp [updateStreamsList, hs, ih hrest]

/-- When the first match exists and the payload has no `id` field, the
replacement returns the patched record and it is still found under the same
id afterwards. -/
theorem updateStreamsList_found (id : String) (p : StreamPatch) (now : Nat)
    (hp : p.id = none) :
    ∀ (l : List IPTVStream) (s : IPTVStream),
      l.find? (fun t => t.id == id) = some s →
      (updateStreamsList l id p now).1 = some (applyPatch s p now) ∧
      ((updateStreamsList l id p now).2).find? (fun t => t.id == id) =
        some (applyPatch s p now) := by
  intro l
  induction l with
  | nil => intro s h; simp at h
  | cons t rest ih =>
    intro s h
    rw [List.find?_cons] at h
    by_cases ht : t.id == id
    · simp only [ht] at h
      injection h with h
      subst h
      have hid : ((applyPatch t p now).id == id) = true := by
        simp only [applyPatch, hp, Option.getD_none]
        exact ht
      constructor
      · simp [updateStreamsList, ht]
      · simp only [updateStreamsList, ht, if_true]
        rw [List.find?_cons]
        simp [hid]
    · simp only [Bool.not_eq_true] at ht
      simp only [ht] at h
      obtain ⟨h1, h2⟩ := ih s h
      constructor
      · simpa [updateStreamsList, ht] using h1
      · simp only [updateStreamsList, ht]
        rcases hrec : updateStreamsList rest id p now with ⟨r, rest2⟩
        rw [hrec] at h1 h2
        simp only at h1 h2
        simp only [if_false, Bool.false_eq_true]
        rw [List.find?_cons]
        simp [ht, h2]

/-- `updateStream` on an unknown id changes nothing and returns `undefined`. -/
theorem updateStream_not_found (env : Env) (st : St) (id : String) (p : StreamPatch)
    (h : getStreamById st id = none) : updateStream env st id p = (none, st) := by
  have hl := updateStreamsList_not_found id p env.now st.streams h
  simp [updateStream, hl]

/-- `updateStream` on an existing stream (with an id-free payload): returns
the patched record, leaves it retrievable under the same id, preserves all
stored ids, and only appends to the trace. -/
theorem updateStream_found (env : Env) (st : St) (id : String) (p : StreamPatch)
    (s : IPTVStream) (hp : p.id = none) (h : getStreamById st id = some s) :
    (updateStream env st id p).1 = some (applyPatch s p env.now) ∧
    getStreamById (updateStream env st id p).2 id = some (applyPatch s p env.now) ∧
    (updateStream env st id p).2.streams.map (fun t => t.id) =
      st.streams.map (fun t => t.id) ∧
    ∃ δ, (updateStream env st id p).2.trace = st.trace ++ δ := by
  obtain ⟨h1, h2⟩ := updateStreamsList_found id p env.now hp st.streams s h
  have hmap := updateStreamsList_map_id id p env.now hp st.streams
  rcases hrec : updateStreamsList st.streams id p env.now with ⟨r, streams2⟩
  rw [hrec] at h1 h2 hmap
  simp only at h1 h2 hmap
  subst h1
  unfold updateStream
  rw [hrec]
  by_cases hc : (truthy p.link1 || truthy p.rtmp || truthy p.key || truthy p.bitrate ||
      truthy p.resolution) = true
  · exact ⟨rfl, by simpa [getStreamById, getAllStreams, recordEffect, hc] using h2,
      by simpa [recordEffect, hc] using hmap,
      ⟨[Effect.writeStreamsFile streams2,
        Effect.writeScriptFile (applyPatch s p env.now).id], by simp [recordEffect, hc]⟩⟩
  · exact ⟨rfl, by simpa [getStreamById, getAllStreams, recordEffect, hc] using h2,
      by simpa [recordEffect, hc] using hmap,
      ⟨[Effect.writeStreamsFile streams2], by simp [recordEffect, hc]⟩⟩

/-- `updateStream` with an id-free payload never changes the sequence of
stored ids. -/
theorem updateStream_ids_unchanged (env : Env) (st : St) (id : String)
    (p : StreamPatch) (hp : p.id = none) :
    (updateStream env st id p).2.streams.map (fun s => s.id) =
      st.streams.map (fun s => s.id) := by
  have hmap := updateStreamsList_map_id id p env.now hp st.streams
  rcases hrec : updateStreamsList st.streams id p env.now with ⟨r, streams2⟩
  rw [hrec] at hmap
  simp only at hmap
  cases r with
  | none => simp [updateStream, hrec]
  | some u =>
    by_cases hc : (truthy p.link1 || truthy p.rtmp || truthy p.key || truthy p.bitrate ||
        truthy p.resolution) = true
    · simpa [updateStream, hrec, recordEffect, hc] using hmap
    · simpa [updateStream, hrec, recordEffect, hc] using hmap

/-! ## Concrete fixtures used by witnesses and counterexamples -/

/-- A concrete stream record, initially inactive. -/
def sampleStream : IPTVStream :=
  { id := "s1", name := "news", key := "k1", link1 := "http://in/a",
    rtmp := "rtmp://out", category1 := "cat", bitrate := "800k",
    resolution := "1280x720", active := false, createdAt := 5, updatedAt := 5 }

/-- The same stream, marked active. -/
def sampleStreamActive : IPTVStream := { sampleStream with active := true }

/-- Linux host at time 99 where every shell command succeeds with empty
output, spawns succeed, and no auxiliary files exist. -/
def okEnv : Env :=
  { platform := HostOS.linux, now := 99,
    exec := fun _ => Except.ok "", spawnOk := fun _ _ => Except.ok (),
    fileExists := fun _ => false, readFile := fun _ => Except.error "ENOENT",
    rmatch := fun _ _ _ => none, mkDateMs := fun _ _ _ _ _ _ => 0,
    osUptime := 0, loadavg0 := 0, totalmem := 0, freemem := 0 }

/-- Like `okEnv`, but every shell command and spawn throws. -/
def failEnv : Env :=
  { okEnv with exec := fun _ => Except.error "boom",
               spawnOk := fun _ _ => Except.error "boom" }

/-- State holding the single inactive stream, with an empty trace. -/
def stInactive : St := { streams := [sampleStream] }

/-- State holding the single active stream, with an empty trace. -/
def stActive : St := { streams := [sampleStreamActive] }

/-! ## Claim C5 -/

/-- C5 counterexample: the stored id is not immutable under `updateStream`.
Before the update the store holds the single id "s1"; updating "s1" with a
payload whose `id` field is "s2" (which the PUT route passes through from the
request body unchecked) leaves a record whose id is "s2". -/
theorem updateStream_id_overwrite_cex :
    stInactive.streams.map (fun s => s.id) = ["s1"] ∧
    (updateStream okEnv stInactive "s1"
        { id := some "s2" }).2.streams.map (fun s => s.id) = ["s2"] := by
  constructor
  · rfl
  · decide

/-- C5 (amended): `updateStream` preserves every stored id — and returns a
record carrying the id it was looked up by — provided the update payload does
not itself contain an `id` field; a payload with an `id` field overwrites the
stored id. -/
theorem updateStream_preserves_ids (env : Env) (st : St) (id : String)
    (p : StreamPatch) (hp : p.id = none) :
    (updateStream env st id p).2.streams.map (fun s => s.id) =
      st.streams.map (fun s => s.id) ∧
    ∀ u, (updateStream env st id p).1 = some u → u.id = id := by
  rcases hrec : updateStreamsList st.streams id p env.now with ⟨r, streams2⟩
  refine ⟨updateStream_ids_unchanged env st id p hp, ?_⟩
  intro u hu
  apply updateStreamsList_fst_id id p env.now hp st.streams u
  rw [hrec]
  cases r with
  | none => simp [updateStream, hrec] at hu
  | some v =>
    by_cases hc : (truthy p.link1 || truthy p.rtmp || truthy p.key || truthy p.bitrate ||
        truthy p.resolution) = true
    · simp [updateStream, hrec, recordEffect, hc] at hu
      simpa using hu
    · simp [updateStream, hrec, recordEffect, hc] at hu
      simpa using hu

/-- Witness for C5 (amended) at a concrete id-free payload: the hypothesis
holds and the stored ids are unchanged by the update. -/
theorem updateStream_preserves_ids_witness :
    ({ name := some "renamed" } : StreamPatch).id = none ∧
    (updateStream okEnv stInactive "s1"
        { name := some "renamed" }).2.streams.map (fun s => s.id) =
      stInactive.streams.map (fun s => s.id) :=
  ⟨rfl, (updateStream_preserves_ids okEnv stInactive "s1"
    { name := some "renamed" } rfl).1⟩

/-! ## Lemmas about `stopStream` -/

/-- The kill phase touches the trace only, never the stored streams. -/
theorem killPhase_streams (env : Env) (st : St) (stream : IPTVStream) :
    (killPhase env st stream).2.streams = st.streams := by
  unfold killPhase
  cases hw : env.isWin with
  | true =>
    simp only [if_true]
    cases env.exec (winKillCmd1 stream.link1) with
    | error e => simp [recordEffect]
    | ok _ =>
      cases env.exec (winKillCmd2 stream.link1) with
      | error e => simp [recordEffect]
      | ok _ => simp [recordEffect]
  | false =>
    simp only [Bool.false_eq_true, if_false]
    cases env.exec (unixKillCmd stream.link1) with
    | error e => simp [recordEffect]
    | ok _ => simp [recordEffect]

/-- The kill phase appends at least one `exec` effect, and nothing else. -/
theorem killPhase_trace (env : Env) (st : St) (stream : IPTVStream) :
    ∃ δ, (killPhase env st stream).2.trace = st.trace ++ δ ∧
      δ ≠ [] ∧ ∀ e ∈ δ, ∃ c, e = Effect.exec c := by
  unfold killPhase
  cases hw : env.isWin with
  | true =>
    simp only [if_true]
    cases env.exec (winKillCmd1 stream.link1) with
    | error e =>
      refine ⟨[Effect.exec (winKillCmd1 stream.link1)], by simp [recordEffect], by simp, ?_⟩
      intro x hx
      rw [List.mem_singleton] at hx
      exact ⟨_, hx⟩
    | ok _ =>
      cases env.exec (winKillCmd2 stream.link1) with
      | error e =>
        refine ⟨[Effect.exec (winKillCmd1 stream.link1), Effect.exec (winKillCmd2 stream.link1)],
          by simp [recordEffect], by simp, ?_⟩
        intro x hx
        simp only [List.mem_cons, List.not_mem_nil, or_false] at hx
        rcases hx with rfl | rfl
        · exact ⟨_, rfl⟩
        · exact ⟨_, rfl⟩
      | ok _ =>
        refine ⟨[Effect.exec (winKillCmd1 stream.link1), Effect.exec (winKillCmd2 stream.link1)],
          by simp [recordEffect], by simp, ?_⟩
        intro x hx
        simp only [List.mem_cons, List.not_mem_nil, or_false] at hx
        rcases hx with rfl | rfl
        · exact ⟨_, rfl⟩
        · exact ⟨_, rfl⟩
  | false =>
    simp only [Bool.false_eq_true, if_false]
    cases env.exec (unixKillCmd stream.link1) with
    | error e =>
      refine ⟨[Effect.exec (unixKillCmd stream.link1)], by simp [recordEffect], by simp, ?_⟩
      intro x hx
      rw [List.mem_singleton] at hx
      exact ⟨_, hx⟩
    | ok _ =>
      refine ⟨[Effect.exec (unixKillCmd stream.link1)], by simp [recordEffect], by simp, ?_⟩
      intro x hx
      rw [List.mem_singleton] at hx
      exact ⟨_, hx⟩

/-! ## Claims C3 and C9 -/

/-- C3 counterexample: stopping a stream that is already stopped
(`sampleStream.active = false`) does not return a NotRunning error and is not
side-effect free.  It returns `true` (success), issues the `pkill` command,
rewrites the persisted record (its `updatedAt` moves to the current clock),
and appends a "Stream stopped" log entry. -/
theorem stopStream_inactive_side_effects_cex :
    sampleStream.active = false ∧
    (stopStream okEnv stInactive "s1").1 = true ∧
    (stopStream okEnv stInactive "s1").2.trace =
      [Effect.exec (unixKillCmd "http://in/a"),
       Effect.writeStreamsFile [{ sampleStream with updatedAt := 99 }],
       Effect.appendLogLine "s1"
         { timestamp := 99, message := "Stream stopped", type := LogType.info }] ∧
    getStreamById (stopStream okEnv stInactive "s1").2 "s1" =
      some { sampleStream with updatedAt := 99 } := by
  refine ⟨rfl, ?_, ?_, ?_⟩ <;> decide

/-- C3 (amended): `stopStream` never checks whether the stream is running.
For an unknown id it returns `false` with no side effects; for any existing
stream — active or not — it issues the platform kill command, rewrites the
record to `active = false` with a fresh `updatedAt`, appends a log entry, and
returns `true`. -/
theorem stopStream_unconditional (env : Env) (st : St) (id : String) :
    (getStreamById st id = none → stopStream env st id = (false, st)) ∧
    ∀ stream, getStreamById st id = some stream →
      (stopStream env st id).1 = true ∧
      (∃ δ, (stopStream env st id).2.trace = st.trace ++ δ ∧
        (∃ c, Effect.exec c ∈ δ) ∧ (∃ entry, Effect.appendLogLine id entry ∈ δ)) ∧
      (∃ u, getStreamById (stopStream env st id).2 id = some u ∧
        u.active = false ∧ u.updatedAt = env.now) := by
  constructor
  · intro h
    unfold stopStream
    rw [h]
  · intro stream h
    obtain ⟨δk, hδk, hδkne, hδkexec⟩ := killPhase_trace env st stream
    have hkstr := killPhase_streams env st stream
    have hexecmem : ∃ c, Effect.exec c ∈ δk := by
      obtain ⟨x, hx⟩ := List.exists_mem_of_ne_nil δk hδkne
      obtain ⟨c, rfl⟩ := hδkexec x hx
      exact ⟨c, hx⟩
    simp only [stopStream, h]
    rcases hkp : killPhase env st stream with ⟨res, st1⟩
    rw [hkp] at hδk hkstr
    simp only at hδk hkstr
    have hfind1 : getStreamById st1 id = some stream := by
      unfold getStreamById getAllStreams at h ⊢
      rw [hkstr]
      exact h
    cases res with
    | ok _ =>
      obtain ⟨_, hfind2, _, δu, hδu⟩ :=
        updateStream_found env st1 id { active := some false } stream rfl hfind1
      refine ⟨rfl, ?_, ?_⟩
      · refine ⟨δk ++ (δu ++ [Effect.appendLogLine id
          { timestamp := env.now, message := "Stream stopped", type := LogType.info }]),
          ?_, ?_, ?_⟩
        · simp only [appendToLogSt, recordEffect, hδu, hδk, List.append_assoc]
        · obtain ⟨c, hc⟩ := hexecmem
          exact ⟨c, List.mem_append_left _ hc⟩
        · exact ⟨_, List.mem_append_right _ (List.mem_append_right _ (List.mem_singleton.mpr rfl))⟩
      · refine ⟨applyPatch stream { active := some false } env.now, ?_, rfl, rfl⟩
        simpa [appendToLogSt, recordEffect, getStreamById, getAllStreams] using hfind2
    | error m =>
      have hfind1b : getStreamById (appendToLogSt st1 id
          { timestamp := env.now, message := "Error while stopping stream: " ++ m,
            type := LogType.warning }) id = some stream := hfind1
      obtain ⟨_, hfind2, _, δu, hδu⟩ :=
        updateStream_found env (appendToLogSt st1 id
          { timestamp := env.now, message := "Error while stopping stream: " ++ m,
            type := LogType.warning }) id { active := some false } stream rfl hfind1b
      refine ⟨rfl, ?_, ?_⟩
      · refine ⟨δk ++ (Effect.appendLogLine id
          { timestamp := env.now, message := "Error while stopping stream: " ++ m,
            type := LogType.warning } :: δu), ?_, ?_, ?_⟩
        · rw [hδu]
          simp only [appendToLogSt, recordEffect, hδk, List.append_assoc]
          simp
        · obtain ⟨c, hc⟩ := hexecmem
          exact ⟨c, List.mem_append_left _ hc⟩
        · exact ⟨_, List.mem_append_right _ (List.mem_cons_self _ _)⟩
      · exact ⟨applyPatch stream { active := some false } env.now, hfind2, rfl, rfl⟩

/-- Witness for C3 (amended), applying the theorem to the concrete active
stream: the lookup hypothesis holds and stopping returns `true`, traces a
kill and a log append, and stores an inactive record stamped at time 99. -/
theorem stopStream_unconditional_witness :
    getStreamById stActive "s1" = some sampleStreamActive ∧
    ((stopStream okEnv stActive "s1").1 = true ∧
      (∃ δ, (stopStream okEnv stActive "s1").2.trace = stActive.trace ++ δ ∧
        (∃ c, Effect.exec c ∈ δ) ∧ (∃ entry, Effect.appendLogLine "s1" entry ∈ δ)) ∧
      (∃ u, getStreamById (stopStream okEnv stActive "s1").2 "s1" = some u ∧
        u.active = false ∧ u.updatedAt = okEnv.now)) :=
  ⟨by decide, (stopStream_unconditional okEnv stActive "s1").2 sampleStreamActive (by decide)⟩

/-- C9: even when the OS kill command throws, `stopStream` still returns
`true`, still stores the stream as inactive, and appends the thrown error as
a warning log entry — the failure is swallowed. -/
theorem stopStream_swallows_kill_error (env : Env) (st : St) (id : String)
    (stream : IPTVStream) (m : String)
    (h : getStreamById st id = some stream)
    (hk : (killPhase env st stream).1 = Except.error m) :
    (stopStream env st id).1 = true ∧
    (∃ u, getStreamById (stopStream env st id).2 id = some u ∧ u.active = false) ∧
    ∃ δ, (stopStream env st id).2.trace = st.trace ++ δ ∧
      Effect.appendLogLine id { timestamp := env.now, message := "Error while stopping stream: " ++ m, type := LogType.warning } ∈ δ := by
  obtain ⟨δk, hδk, _, _⟩ := killPhase_trace env st stream
  have hkstr := killPhase_streams env st stream
  simp only [stopStream, h]
  rcases hkp : killPhase env st stream with ⟨res, st1⟩
  rw [hkp] at hδk hkstr hk
  simp only at hδk hkstr hk
  subst hk
  have hfind1 : getStreamById st1 id = some stream := by
    unfold getStreamById getAllStreams at h ⊢
    rw [hkstr]
    exact h
  have hfind1b : getStreamById (appendToLogSt st1 id
      { timestamp := env.now, message := "Error while stopping stream: " ++ m,
        type := LogType.warning }) id = some stream := hfind1
  obtain ⟨_, hfind2, _, δu, hδu⟩ :=
    updateStream_found env (appendToLogSt st1 id
      { timestamp := env.now, message := "Error while stopping stream: " ++ m,
        type := LogType.warning }) id { active := some false } stream rfl hfind1b
  refine ⟨rfl, ⟨applyPatch stream { active := some false } env.now, hfind2, rfl⟩, ?_⟩
  refine ⟨δk ++ (Effect.appendLogLine id
    { timestamp := env.now, message := "Error while stopping stream: " ++ m,
      type := LogType.warning } :: δu), ?_, ?_⟩
  · rw [hδu]
    simp only [appendToLogSt, recordEffect, hδk, List.append_assoc]
    simp
  · exact List.mem_append_right _ (List.mem_cons_self _ _)

/-- Witness for C9 at the concrete failing environment: the hypotheses hold
(the stream exists and the kill command throws "boom"), and stopping still
succeeds, stores an inactive record, and traces the warning entry. -/
theorem stopStream_swallows_kill_error_witness :
    getStreamById stActive "s1" = some sampleStreamActive ∧
    (killPhase failEnv stActive sampleStreamActive).1 = Except.error "boom" ∧
    ((stopStream failEnv stActive "s1").1 = true ∧
      (∃ u, getStreamById (stopStream failEnv stActive "s1").2 "s1" = some u ∧
        u.active = false) ∧
      ∃ δ, (stopStream failEnv stActive "s1").2.trace = stActive.trace ++ δ ∧
        Effect.appendLogLine "s1" { timestamp := failEnv.now, message := "Error while stopping stream: " ++ "boom", type := LogType.warning } ∈ δ) :=
  ⟨by decide, by rfl,
    stopStream_swallows_kill_error failEnv stActive "s1" sampleStreamActive "boom"
      (by decide) (by rfl)⟩

/-! ## Claim C2 -/

/-- C2 counterexample: calling `startStream` on a stream that is already
running does not fail with an AlreadyRunning error — it returns `true`
(success) and leaves the state untouched (the source comments this path
"Already running, no need to start again").  The check is on the persisted
`active` flag; no live process handle exists anywhere in the module. -/
theorem startStream_active_returns_true_cex :
    sampleStreamActive.active = true ∧
    startStream okEnv stActive "s1" = (true, stActive) := by
  constructor
  · rfl
  · decide

/-- C2 (amended): `startStream` treats the persisted `active` flag as the
running test.  When the flag is set it returns `true` immediately (success,
not an error) without spawning anything; when it is clear and the spawn
succeeds, it spawns the transcoder, marks the stream active, and appends a
"Stream started" log entry. -/
theorem startStream_start_semantics (env : Env) (st : St) (id : String)
    (stream : IPTVStream) (h : getStreamById st id = some stream) :
    (stream.active = true → startStream env st id = (true, st)) ∧
    (stream.active = false →
      env.spawnOk (launchCmdArgs env stream id).1 (launchCmdArgs env stream id).2 =
        Except.ok () →
      (startStream env st id).1 = true ∧
      (∃ u, getStreamById (startStream env st id).2 id = some u ∧ u.active = true) ∧
      ∃ δ, (startStream env st id).2.trace = st.trace ++ δ ∧
        Effect.spawnProc (launchCmdArgs env stream id).1 (launchCmdArgs env stream id).2 ∈ δ ∧
        Effect.appendLogLine id { timestamp := env.now, message := "Stream started", type := LogType.info } ∈ δ) := by
  constructor
  · intro ha
    simp [startStream, h, ha]
  · intro ha hs
    simp only [startStream, h, ha, Bool.false_eq_true, if_false]
    rcases hca : launchCmdArgs env stream id with ⟨cmd, args⟩
    rw [hca] at hs
    simp only at hs
    rw [hs]
    have hfind1 : getStreamById (recordEffect st (Effect.spawnProc cmd args)) id =
        some stream := h
    obtain ⟨_, hfind2, _, δu, hδu⟩ :=
      updateStream_found env (recordEffect st (Effect.spawnProc cmd args)) id
        { active := some true } stream rfl hfind1
    refine ⟨rfl, ?_, ?_⟩
    · refine ⟨applyPatch stream { active := some true } env.now, ?_, rfl⟩
      simpa [appendToLogSt, recordEffect, getStreamById, getAllStreams] using hfind2
    · refine ⟨Effect.spawnProc cmd args :: (δu ++ [Effect.appendLogLine id
        { timestamp := env.now, message := "Stream started", type := LogType.info }]), ?_, ?_, ?_⟩
      · rw [show (appendToLogSt (updateStream env (recordEffect st (Effect.spawnProc cmd args)) id { active := some true }).2 id { timestamp := env.now, message := "Stream started", type := LogType.info }).trace = (updateStream env (recordEffect st (Effect.spawnProc cmd args)) id { active := some true }).2.trace ++ [Effect.appendLogLine id { timestamp := env.now, message := "Stream started", type := LogType.info }] from rfl]
        rw [hδu]
        simp [recordEffect, List.append_assoc]
      · exact List.mem_cons_self _ _
      · exact List.mem_cons_of_mem _ (List.mem_append_right _ (List.mem_singleton.mpr rfl))

/-- Witness for C2 (amended) at the concrete inactive stream: the lookup and
spawn-success hypotheses hold, starting returns `true`, the stored record
becomes active, and the trace gains the spawn and the log append. -/
theorem startStream_start_semantics_witness :
    getStreamById stInactive "s1" = some sampleStream ∧
    sampleStream.active = false ∧
    okEnv.spawnOk (launchCmdArgs okEnv sampleStream "s1").1
      (launchCmdArgs okEnv sampleStream "s1").2 = Except.ok () ∧
    ((startStream okEnv stInactive "s1").1 = true ∧
      (∃ u, getStreamById (startStream okEnv stInactive "s1").2 "s1" = some u ∧
        u.active = true) ∧
      ∃ δ, (startStream okEnv stInactive "s1").2.trace = stInactive.trace ++ δ ∧
        Effect.spawnProc (launchCmdArgs okEnv sampleStream "s1").1
          (launchCmdArgs okEnv sampleStream "s1").2 ∈ δ ∧
        Effect.appendLogLine "s1" { timestamp := okEnv.now, message := "Stream started", type := LogType.info } ∈ δ) :=
  ⟨by decide, rfl, rfl,
    (startStream_start_semantics okEnv stInactive "s1" sampleStream (by decide)).2 rfl rfl⟩

/-! ## Claim C1 -/

/-- `updateStream` only ever appends to the trace. -/
theorem updateStream_trace_extends (env : Env) (st : St) (id : String) (p : StreamPatch) :
    ∃ δ, (updateStream env st id p).2.trace = st.trace ++ δ := by
  rcases hrec : updateStreamsList st.streams id p env.now with ⟨r, streams2⟩
  cases r with
  | none => exact ⟨[], by simp [updateStream, hrec]⟩
  | some u =>
    by_cases hc : (truthy p.link1 || truthy p.rtmp || truthy p.key || truthy p.bitrate ||
        truthy p.resolution) = true
    · exact ⟨[Effect.writeStreamsFile streams2, Effect.writeScriptFile u.id],
        by simp [updateStream, hrec, recordEffect, hc]⟩
    · exact ⟨[Effect.writeStreamsFile streams2],
        by simp [updateStream, hrec, recordEffect, hc]⟩

/-- `startStream` only ever appends to the trace. -/
theorem startStream_trace_extends (env : Env) (st : St) (id : String) :
    ∃ δ, (startStream env st id).2.trace = st.trace ++ δ := by
  unfold startStream
  cases h : getStreamById st id with
  | none => exact ⟨[], by simp⟩
  | some stream =>
    by_cases hb : stream.active = true
    · exact ⟨[], by simp [hb]⟩
    · simp only [hb, if_false]
      rcases hca : launchCmdArgs env stream id with ⟨cmd, args⟩
      cases hs : env.spawnOk cmd args with
      | ok _ =>
        obtain ⟨δu, hδu⟩ := updateStream_trace_extends env
          (recordEffect st (Effect.spawnProc cmd args)) id { active := some true }
        refine ⟨Effect.spawnProc cmd args :: (δu ++ [Effect.appendLogLine id
          { timestamp := env.now, message := "Stream started", type := LogType.info }]), ?_⟩
        simp only [recordEffect] at hδu
        simp [appendToLogSt, recordEffect, hδu]
      | error e =>
        exact ⟨[Effect.spawnProc cmd args, Effect.appendLogLine id
          { timestamp := env.now, message := "Failed to start stream: " ++ e,
            type := LogType.error }], by simp [appendToLogSt, recordEffect]⟩

/-- The state handed to `startStream` by `restartStream`: the post-stop state
with the fixed 1000 ms sleep appended. -/
def afterStopSleep (env : Env) (st : St) (id : String) : St :=
  recordEffect (stopStream env st id).2 (Effect.sleepMs 1000)

/-- Formal reading of C1's "waits for confirmed exit ... (not a fixed sleep)":
no sleep effect occurs in the trace. -/
def noFixedSleep (δ : List Effect) : Prop := ∀ ms, Effect.sleepMs ms ∉ δ

/-- C1 counterexample: restarting the concrete active stream produces exactly
stop's effects, a fixed 1000 ms sleep, then start's effects.  Between the kill
command and the relaunch there is no process-table query or any other exit
confirmation — only the sleep — so the claim's "waits for confirmed exit (not
a fixed sleep)" is false at this input. -/
theorem restartStream_fixed_sleep_cex :
    (restartStream okEnv stActive "s1").2.trace =
      [Effect.exec (unixKillCmd "http://in/a"),
       Effect.writeStreamsFile [{ sampleStream with updatedAt := 99 }],
       Effect.appendLogLine "s1" { timestamp := 99, message := "Stream stopped", type := LogType.info },
       Effect.sleepMs 1000,
       Effect.spawnProc "sh" [scriptPath "s1", "http://in/a", "rtmp://out"],
       Effect.writeStreamsFile [{ sampleStream with active := true, updatedAt := 99 }],
       Effect.appendLogLine "s1" { timestamp := 99, message := "Stream started", type := LogType.info }] ∧
    ¬ noFixedSleep (restartStream okEnv stActive "s1").2.trace := by
  constructor
  · decide
  · intro hns
    exact hns 1000 (by decide)

/-- C1 (amended): `restartStream` composes stop, then an unconditional fixed
1000 ms sleep, then start — the state handed to `startStream` is exactly the
post-stop state with the sleep appended, and the sleep (not an exit
confirmation) is always present in the final trace. -/
theorem restartStream_stop_sleep_start (env : Env) (st : St) (id : String) :
    restartStream env st id = startStream env (afterStopSleep env st id) id ∧
    Effect.sleepMs 1000 ∈ (restartStream env st id).2.trace := by
  constructor
  · rfl
  · obtain ⟨δ, hδ⟩ := startStream_trace_extends env (afterStopSleep env st id) id
    show Effect.sleepMs 1000 ∈ (startStream env (afterStopSleep env st id) id).2.trace
    rw [hδ]
    apply List.mem_append_left
    unfold afterStopSleep recordEffect
    simp

/-! ## Claim C4 -/

/-- `updateStream` with an id-free payload preserves the sequence of stored
ids (in particular, which ids exist). -/
theorem updateStream_streams_map_id (env : Env) (st : St) (id : String)
    (p : StreamPatch) (hp : p.id = none) :
    (updateStream env st id p).2.streams.map (fun s => s.id) =
      st.streams.map (fun s => s.id) :=
  updateStream_ids_unchanged env st id p hp

/-- `stopStream` preserves the sequence of stored ids. -/
theorem stopStream_streams_map_id (env : Env) (st : St) (id : String) :
    (stopStream env st id).2.streams.map (fun s => s.id) =
      st.streams.map (fun s => s.id) := by
  cases h : getStreamById st id with
  | none => simp [stopStream, h]
  | some stream =>
    simp only [stopStream, h]
    have hkstr := killPhase_streams env st stream
    rcases hkp : killPhase env st stream with ⟨res, st1⟩
    rw [hkp] at hkstr
    simp only at hkstr
    cases res with
    | ok _ =>
      simp only [appendToLogSt, recordEffect]
      rw [updateStream_streams_map_id env st1 id { active := some false } rfl, hkstr]
    | error m =>
      have hupd : (updateStream env (appendToLogSt st1 id
          { timestamp := env.now, message := "Error while stopping stream: " ++ m,
            type := LogType.warning }) id
          { active := some false }).2.streams.map (fun s => s.id) =
          st1.streams.map (fun s => s.id) :=
        updateStream_streams_map_id env _ id { active := some false } rfl
      rw [hupd, hkstr]

/-- C4: deleting a stream stops it first and only then cleans up, and delete
reports NotFound exactly for unknown ids.  Conjuncts: (1) the result is
`false` iff no stored stream has the id; (2) the final trace is the post-stop
trace followed only by file cleanup (the streams.json rewrite and the
script/log unlinks) — so every kill command precedes every cleanup action;
(3) no record with the id survives the delete. -/
theorem deleteStream_stops_first (env : Env) (st : St) (id : String) :
    ((deleteStream env st id).1 = false ↔ id ∉ st.streams.map (fun s => s.id)) ∧
    (∃ δ, (deleteStream env st id).2.trace = (stopStream env st id).2.trace ++ δ ∧
      ∀ e ∈ δ, (∃ l, e = Effect.writeStreamsFile l) ∨ (∃ f, e = Effect.unlinkFile f)) ∧
    (∀ s ∈ (deleteStream env st id).2.streams, s.id ≠ id) := by
  have hmap := stopStream_streams_map_id env st id
  have hiff : (((stopStream env st id).2.streams.filter (fun s => s.id != id)).length ==
      (stopStream env st id).2.streams.length) = true ↔
      ∀ s ∈ (stopStream env st id).2.streams, s.id ≠ id := by
    rw [beq_iff_eq]
    constructor
    · intro hlen s hs
      have heq := (List.filter_sublist (stopStream env st id).2.streams).eq_of_length hlen
      have hmem := List.filter_eq_self.mp heq s hs
      simpa using hmem
    · intro hall
      have hfe : (stopStream env st id).2.streams.filter (fun s => s.id != id) =
          (stopStream env st id).2.streams :=
        List.filter_eq_self.mpr (fun s hs => by simpa using hall s hs)
      rw [hfe]
  have hmem : (∀ s ∈ (stopStream env st id).2.streams, s.id ≠ id) ↔
      id ∉ st.streams.map (fun s => s.id) := by
    rw [← hmap]
    constructor
    · intro h hx
      obtain ⟨x, hxl, hxid⟩ := List.mem_map.mp hx
      exact h x hxl hxid
    · intro h s hs hsid
      exact h (List.mem_map.mpr ⟨s, hs, hsid⟩)
  simp only [deleteStream]
  by_cases hb : (((stopStream env st id).2.streams.filter (fun s => s.id != id)).length ==
      (stopStream env st id).2.streams.length) = true
  · rw [if_pos hb]
    exact ⟨iff_of_true rfl (hmem.mp (hiff.mp hb)), ⟨[], by simp, by simp⟩, hiff.mp hb⟩
  · rw [if_neg hb]
    refine ⟨iff_of_false (by simp) (fun hnm => hb (hiff.mpr (hmem.mpr hnm))), ?_, ?_⟩
    · by_cases h1 : env.fileExists (scriptPath id) = true
      · by_cases h2 : env.fileExists (logPath id) = true
        · refine ⟨[Effect.writeStreamsFile
              ((stopStream env st id).2.streams.filter (fun s => s.id != id)),
            Effect.unlinkFile (scriptPath id), Effect.unlinkFile (logPath id)], ?_, ?_⟩
          · simp [recordEffect, h1, h2, List.append_assoc]
          · intro e he
            simp only [List.mem_cons, List.not_mem_nil, or_false] at he
            rcases he with rfl | rfl | rfl
            · exact Or.inl ⟨_, rfl⟩
            · exact Or.inr ⟨_, rfl⟩
            · exact Or.inr ⟨_, rfl⟩
        · refine ⟨[Effect.writeStreamsFile
              ((stopStream env st id).2.streams.filter (fun s => s.id != id)),
            Effect.unlinkFile (scriptPath id)], ?_, ?_⟩
          · simp [recordEffect, h1, h2, List.append_assoc]
          · intro e he
            simp only [List.mem_cons, List.not_mem_nil, or_false] at he
            rcases he with rfl | rfl
            · exact Or.inl ⟨_, rfl⟩
            · exact Or.inr ⟨_, rfl⟩
      · by_cases h2 : env.fileExists (logPath id) = true
        · refine ⟨[Effect.writeStreamsFile
              ((stopStream env st id).2.streams.filter (fun s => s.id != id)),
            Effect.unlinkFile (logPath id)], ?_, ?_⟩
          · simp [recordEffect, h1, h2, List.append_assoc]
          · intro e he
            simp only [List.mem_cons, List.not_mem_nil, or_false] at he
            rcases he with rfl | rfl
            · exact Or.inl ⟨_, rfl⟩
            · exact Or.inr ⟨_, rfl⟩
        · refine ⟨[Effect.writeStreamsFile
              ((stopStream env st id).2.streams.filter (fun s => s.id != id))], ?_, ?_⟩
          · simp [recordEffect, h1, h2, List.append_assoc]
          · intro e he
            simp only [List.mem_cons, List.not_mem_nil, or_false] at he
            rcases he with rfl
            exact Or.inl ⟨_, rfl⟩
    · intro s hs
      by_cases h1 : env.fileExists (scriptPath id) = true <;>
        by_cases h2 : env.fileExists (logPath id) = true <;>
        simp only [recordEffect, h1, h2, if_true, if_false] at hs <;>
        · have hf := List.mem_filter.mp hs
          simpa using hf.2

/-- Witness for C4 at the concrete active stream: deleting "s1" reports
success (the iff instance), the cleanup follows the stop trace, and no record
with id "s1" remains. -/
theorem deleteStream_stops_first_witness :
    ((deleteStream okEnv stActive "s1").1 = false ↔
      "s1" ∉ stActive.streams.map (fun s => s.id)) ∧
    (∃ δ, (deleteStream okEnv stActive "s1").2.trace =
        (stopStream okEnv stActive "s1").2.trace ++ δ ∧
      ∀ e ∈ δ, (∃ l, e = Effect.writeStreamsFile l) ∨ (∃ f, e = Effect.unlinkFile f)) ∧
    (∀ s ∈ (deleteStream okEnv stActive "s1").2.streams, s.id ≠ "s1") :=
  deleteStream_stops_first okEnv stActive "s1"

/-! ## Claim C6 -/

/-- The process-table lookup command per platform: both embed the stream's
input URL as the search pattern. -/
def psLookupCmd (isWin : Bool) (url : String) : String :=
  if isWin then winPsLookupCmd url else unixPsLookupCmd url

/-- Formal reading of the pattern C6 forbids: some executed command embeds
the stream's input URL verbatim (the URL is matched against the system-wide
process list). -/
def usesUrlInProcessQuery (δ : List Effect) (url : String) : Prop :=
  ∃ pre post, Effect.exec (pre ++ url ++ post) ∈ δ

/-- The Unix branch performs exactly one `exec` — the `ps aux | grep` lookup
keyed on the input URL — whatever its outcome. -/
theorem unixProcInfo_state (env : Env) (st : St) (stream : IPTVStream) (id : String) :
    (unixProcInfo env st stream id).2 =
      recordEffect st (Effect.exec (unixPsLookupCmd stream.link1)) := by
  simp only [unixProcInfo]
  split
  · rfl
  · split
    · split <;> rfl
    · rfl

/-- The Windows branch's first `exec` is the `wmic` lookup keyed on the input
URL; everything after it only appends further effects. -/
theorem winProcInfo_trace (env : Env) (st : St) (stream : IPTVStream) (id : String) :
    ∃ δ, (winProcInfo env st stream id).2.trace =
      st.trace ++ (Effect.exec (winPsLookupCmd stream.link1) :: δ) := by
  simp only [winProcInfo]
  repeat' split
  all_goals exact ⟨_, by simp only [recordEffect]; simp; try rfl⟩

/-- C6 counterexample: for the concrete active stream with input URL
"http://in/a", the metrics probe's only process lookup is
`ps aux | grep "http://in/a" | grep -v grep` — the PID is derived by matching
the input URL against the system-wide process list, not taken from any
recorded PID (the `pid` field of `IPTVStream` is never written by any
operation of the module). -/
theorem getStreamProcessInfo_url_match_cex :
    (getStreamProcessInfo failEnv stActive "s1").2.trace =
      [Effect.exec (unixPsLookupCmd "http://in/a")] ∧
    usesUrlInProcessQuery (getStreamProcessInfo failEnv stActive "s1").2.trace
      "http://in/a" := by
  constructor
  · decide
  · exact ⟨"ps aux | grep \"", "\" | grep -v grep", by decide⟩

/-- C6 (amended): for every active stream, the first OS interaction of
`getStreamProcessInfo` is the platform's process-table lookup command with
the stream's input URL embedded as the search pattern. -/
theorem getStreamProcessInfo_queries_by_url (env : Env) (st : St) (id : String)
    (stream : IPTVStream) (h : getStreamById st id = some stream)
    (ha : stream.active = true) :
    ∃ δ, (getStreamProcessInfo env st id).2.trace =
      st.trace ++ (Effect.exec (psLookupCmd env.isWin stream.link1) :: δ) := by
  simp only [getStreamProcessInfo, h, ha, Bool.not_true, Bool.false_eq_true, if_false]
  cases hw : env.isWin with
  | true =>
    simp only [if_true]
    exact winProcInfo_trace env st stream id
  | false =>
    simp only [Bool.false_eq_true, if_false]
    exact ⟨[], by rw [unixProcInfo_state]; simp [recordEffect, psLookupCmd]⟩

/-- Witness for C6 (amended) at the concrete active stream on Linux. -/
theorem getStreamProcessInfo_queries_by_url_witness :
    getStreamById stActive "s1" = some sampleStreamActive ∧
    sampleStreamActive.active = true ∧
    ∃ δ, (getStreamProcessInfo failEnv stActive "s1").2.trace =
      stActive.trace ++ (Effect.exec (psLookupCmd failEnv.isWin
        sampleStreamActive.link1) :: δ) :=
  ⟨by decide, rfl,
    getStreamProcessInfo_queries_by_url failEnv stActive "s1" sampleStreamActive
      (by decide) rfl⟩

/-! ## Claim C8 -/

/-- `Math.round 0 = 0`. -/
theorem jsRound_zero : jsRound 0 = 0 := by
  unfold jsRound
  rw [Rat.floor_def', ← Rat.floor_def]
  rw [Int.floor_eq_zero_iff]
  constructor <;> norm_num

/-- Assembling the untouched locals yields the zeroed placeholder record. -/
theorem assembleStats_default : assembleStats {} = zeroedSystemStats := by
  simp [assembleStats, zeroedSystemStats, jsRound_zero]

/-- C8: OS-probe failures degrade to placeholders instead of propagating.
If every shell command throws, `getSystemStats` still returns — the zeroed
placeholder record (on each of the three exec-based platform branches) — and
`getStreamProcessInfo` on an active stream returns `running: false`. -/
theorem probe_failures_degrade (env : Env) (st : St) (id : String)
    (stream : IPTVStream) (hfail : ∀ c r, env.exec c ≠ Except.ok r) :
    (env.platform ≠ HostOS.other → getSystemStats env = zeroedSystemStats) ∧
    (getStreamById st id = some stream → stream.active = true →
      (getStreamProcessInfo env st id).1 = notRunning) := by
  constructor
  · intro hother
    cases hp : env.platform with
    | other => exact absurd hp hother
    | windows =>
      cases hx : env.exec "wmic cpu get loadpercentage" with
      | ok r => exact absurd hx (hfail _ r)
      | error m =>
        have hstep : winCpuStep env {} = Except.error m := by
          unfold winCpuStep
          rw [hx]
          rfl
        simp [getSystemStats, hp, runCatch, hstep, assembleStats_default]
    | mac =>
      cases hx : env.exec "top -l 1 | grep \x27CPU usage\x27" with
      | ok r => exact absurd hx (hfail _ r)
      | error m =>
        have hstep : unixCpuStep env true {} = Except.error m := by
          unfold unixCpuStep
          rw [if_pos rfl, hx]
          rfl
        simp [getSystemStats, hp, runCatch, hstep, assembleStats_default]
    | linux =>
      cases hx : env.exec "top -b -n 1 | grep \x27%Cpu\x27" with
      | ok r => exact absurd hx (hfail _ r)
      | error m =>
        have hstep : unixCpuStep env false {} = Except.error m := by
          unfold unixCpuStep
          rw [if_neg Bool.false_ne_true, hx]
          rfl
        simp [getSystemStats, hp, runCatch, hstep, assembleStats_default]
  · intro h ha
    simp only [getStreamProcessInfo, h, ha, Bool.not_true, Bool.false_eq_true, if_false]
    cases hw : env.isWin with
    | true =>
      simp only [if_true, winProcInfo]
      cases hx : env.exec (winPsLookupCmd stream.link1) with
      | ok r => exact absurd hx (hfail _ r)
      | error m => rfl
    | false =>
      simp only [Bool.false_eq_true, if_false, unixProcInfo]
      cases hx : env.exec (unixPsLookupCmd stream.link1) with
      | ok r => exact absurd hx (hfail _ r)
      | error m => rfl

/-- Witness for C8 in the concrete all-failing Linux environment. -/
theorem probe_failures_degrade_witness :
    (∀ c r, failEnv.exec c ≠ Except.ok r) ∧
    failEnv.platform ≠ HostOS.other ∧
    getStreamById stActive "s1" = some sampleStreamActive ∧
    sampleStreamActive.active = true ∧
    getSystemStats failEnv = zeroedSystemStats ∧
    (getStreamProcessInfo failEnv stActive "s1").1 = notRunning := by
  have hfail : ∀ c r, failEnv.exec c ≠ Except.ok r := fun c r h => Except.noConfusion h
  refine ⟨hfail, by decide, by decide, rfl, ?_, ?_⟩
  · exact (probe_failures_degrade failEnv stActive "s1" sampleStreamActive hfail).1
      (by decide)
  · exact (probe_failures_degrade failEnv stActive "s1" sampleStreamActive hfail).2
      (by decide) rfl
